import Mathlib

/-!
# PureText-AI: verification of the specification against the source

Shallow embedding of the parts of the PureText-AI repository that the
claims under scrutiny talk about:

* `backend/app/services/embedding.py` (shipped as compiled bytecode; the
  constants and control flow below were recovered from the bytecode):
  `create_faiss_index`, `search_similar_vectors`, `get_text_themes`.
* `src/api/plagiarismApi.ts` and `src/types/api.ts`: the `StatusResponse`
  status values.
* `src/pages/Index.tsx`: the polling control flow of `handleSubmission`
  and its inner helper `pollForCompletion`.
* `src/components/PlagiarismReport.tsx` (`generatePDF`): the exact/partial
  match percentage split.
* `src/components/TextInput.tsx` and `src/components/FileUploader.tsx`:
  submission guards.

Real-valued float vectors are modelled with `ℝ`; machine floats carry no
overflow subtleties relevant to the claims here (normalisation, ordering,
score ranges), so exact real arithmetic is the faithful idealisation.
-/

namespace PureText

/-! ## Vectors (numpy arrays of floats, `backend/app/services/embedding.py`) -/

/-- A float vector (one row of a numpy matrix). -/
abbrev Vec := List ℝ

/-- A 2-D numpy float matrix, as its list of rows. -/
abbrev Mat := List Vec

/-- Inner product of two vectors (`faiss.METRIC_INNER_PRODUCT`).
`zipWith` truncates to the common length, as numpy dot requires equal
shapes anyway. -/
def dot (u v : Vec) : ℝ := (List.zipWith (fun x y => x * y) u v).sum

/-- Squared Euclidean norm of a vector. -/
def sumSq (v : Vec) : ℝ := dot v v

/-- Euclidean norm. -/
noncomputable def l2norm (v : Vec) : ℝ := Real.sqrt (sumSq v)

/-- `faiss.normalize_L2` on one row: divide every entry by the row's
Euclidean norm.  (For the zero vector Lean's division by zero returns the
zero vector, matching faiss, which leaves all-zero rows unchanged.) -/
noncomputable def normalize_L2 (v : Vec) : Vec := v.map (fun x => x / l2norm v)

/-- `faiss.normalize_L2` applied to a whole matrix, row by row. -/
noncomputable def normalize_L2_mat (m : Mat) : Mat := m.map normalize_L2

/-- The kind of FAISS index built by `create_faiss_index`. -/
inductive IndexKind
  | flat
  | ivf
deriving DecidableEq

/-- State of a FAISS index as far as the embedding service observes it:
which constructor was used, the dimension (`shape[1]`), the IVF
parameters (`nlist`, `nprobe`; 0 for the flat index, which has none), the
matrix that `index.train` was called on (`[]` for the flat index, which
is never trained), and the vectors that `index.add` stored. -/
structure FaissIndex where
  kind : IndexKind
  dimension : ℕ
  nlist : ℕ
  nprobe : ℕ
  trainedOn : Mat
  stored : Mat

/-- The cluster count picked by `create_faiss_index` for the `'ivf'`
branch: `nlist = min(512, max(64, embeddings.shape[0] // 10))`. -/
def ivf_nlist (n : ℕ) : ℕ := min 512 (max 64 (n / 10))

/-- `create_faiss_index(embeddings, index_type)` from
`backend/app/services/embedding.py`:

```
dimension = embeddings.shape[1]
if index_type == 'flat':
    index = faiss.IndexFlatIP(dimension)
elif index_type == 'ivf':
    quantizer = faiss.IndexFlatIP(dimension)
    nlist = min(512, max(64, embeddings.shape[0] // 10))
    index = faiss.IndexIVFFlat(quantizer, dimension, nlist, faiss.METRIC_INNER_PRODUCT)
    index.train(embeddings)
    index.nprobe = 3
else:
    raise ValueError(f"Unknown index type: ...")
faiss.normalize_L2(embeddings)
index.add(embeddings.astype(np.float32))
return index
```

Exceptions are modelled with `Except`.  The `index.train` call is the
FAISS k-means clustering, which raises (`FAISS_THROW_IF_NOT`) when the
number of training points is smaller than the number of clusters; that
library precondition is the `embeddings.length < nlist` branch.  Note
that in the source `faiss.normalize_L2(embeddings)` runs only *after*
`index.train(embeddings)`, so `trainedOn` holds the raw rows while
`stored` holds the normalised rows. -/
noncomputable def create_faiss_index (embeddings : Mat) (index_type : String) :
    Except String FaissIndex :=
  let dimension := (embeddings.headD []).length
  if index_type = "flat" then
    Except.ok ⟨IndexKind.flat, dimension, 0, 0, [], normalize_L2_mat embeddings⟩
  else if index_type = "ivf" then
    let nlist := ivf_nlist embeddings.length
    if embeddings.length < nlist then
      Except.error "Number of training points should be at least as large as number of clusters"
    else
      Except.ok ⟨IndexKind.ivf, dimension, nlist, 3, embeddings, normalize_L2_mat embeddings⟩
  else
    Except.error ("Unknown index type: " ++ index_type)

/-- Score every stored row against a (already normalised) query, keeping
the row's position: the `(distance, label)` pairs FAISS computes. -/
def scoresFrom (qn : Vec) : Mat → ℕ → List (ℝ × ℕ)
  | [], _ => []
  | v :: vs, i => (dot qn v, i) :: scoresFrom qn vs (i + 1)

/-- Descending order on `(score, label)` pairs, the order FAISS returns
inner-product search results in. -/
noncomputable def scoreDesc (a b : ℝ × ℕ) : Bool := decide (b.1 ≤ a.1)

/-- `index.search(q, k)` for an inner-product index: the `k` best
`(score, label)` pairs, best first.  (For an IVF index FAISS restricts
the candidates to the probed clusters; the shape and ordering of the
result, which is what the claims are about, is the same, so the exact
search is modelled.) -/
noncomputable def index_search (index : FaissIndex) (q : Vec) (k : ℕ) : List (ℝ × ℕ) :=
  ((scoresFrom q index.stored 0).mergeSort scoreDesc).take k

/-- `search_similar_vectors(query_embedding, index, k)` from
`backend/app/services/embedding.py`: copy the query, L2-normalise it,
search, and return the first row of distances and labels. -/
noncomputable def search_similar_vectors (query_embedding : Vec) (index : FaissIndex)
    (k : ℕ) : List (ℝ × ℕ) :=
  let query_embedding_normalized := normalize_L2 query_embedding
  index_search index query_embedding_normalized k

/-- The default of the `k` parameter of `search_similar_vectors`
(`k: int = 5` in the source). -/
def search_default_k : ℕ := 5

/-- `search_similar_vectors` with `k` left at its default. -/
noncomputable def search_similar_vectors_default (query_embedding : Vec)
    (index : FaissIndex) : List (ℝ × ℕ) :=
  search_similar_vectors query_embedding index search_default_k

/-! ## Theme extraction (`get_text_themes` in `embedding.py`)

The Python body splits the text into sentences on `[.!?]`, collects
capitalised phrases and capitalised words with two regexes, counts them
with `collections.Counter`, keeps the most common ones longer than three
characters, tops the list up with frequent plain words, and truncates to
`max_themes`; any exception yields the single fallback theme
`['general']`.  The two `re.findall` character-level regexes are modelled
at word granularity (a word is a maximal whitespace-free run), which
preserves everything the claims depend on: the order and multiplicity of
collected candidates and the shape of the final list. -/

/-- `re.split('[.!?]', text)`. -/
def theme_sentence_split (text : String) : List String :=
  text.split (fun c => c = '.' || c = '!' || c = '?')

/-- Split a sentence into whitespace-separated words (`\s+`). -/
def toWords (s : String) : List String :=
  (s.split Char.isWhitespace).filter (fun w => w ≠ "")

/-- A word matching `[a-z]+`. -/
def isLowerWord (w : String) : Bool :=
  w.length > 0 && w.toList.all Char.isLower

/-- A word matching `[A-Z][a-z]*`. -/
def isCapWord (w : String) : Bool :=
  match w.toList with
  | [] => false
  | c :: rest => c.isUpper && rest.all Char.isLower

/-- Word-level model of
`re.findall(r'\b[A-Z][a-z]*(?:\s+[a-z]+){1,3}\b', sentence)`: a
capitalised word followed greedily by one to three lowercase words;
scanning resumes after each match, as `findall` does. -/
def capPhrases : List String → List String
  | [] => []
  | w :: ws =>
    if isCapWord w then
      let lows := (ws.takeWhile isLowerWord).take 3
      if lows.length ≥ 1 then
        String.intercalate " " (w :: lows) :: capPhrases (ws.drop lows.length)
      else
        capPhrases ws
    else
      capPhrases ws
termination_by ws => ws.length
decreasing_by
  all_goals (simp only [List.length_drop, List.length_cons]; omega)

/-- Word-level model of `re.findall(r'\b[A-Z][a-z]{2,}\b', sentence)`:
capitalised words with at least two trailing lowercase letters. -/
def capWords (ws : List String) : List String :=
  ws.filter (fun w => isCapWord w && w.length ≥ 3)

/-- Word-level model of `re.findall(r'\b[a-zA-Z]{4,}\b', text)`: maximal
alphabetic runs of length at least four. -/
def alphaWords (text : String) : List String :=
  (text.split (fun c => !c.isAlpha)).filter (fun w => w.length ≥ 4)

/-- The distinct elements of a list in order of first occurrence (the
iteration order of `collections.Counter`, whose dict remembers insertion
order). -/
def uniqueFirst : List String → List String
  | [] => []
  | x :: xs => x :: uniqueFirst (xs.filter (fun y => y ≠ x))
termination_by l => l.length
decreasing_by
  simp only [List.length_cons]
  exact Nat.lt_succ_of_le (List.length_filter_le _ _)

/-- `collections.Counter(l)` as an association list in first-occurrence
order. -/
def counterCounts (l : List String) : List (String × ℕ) :=
  (uniqueFirst l).map (fun x => (x, l.count x))

/-- `Counter(l).most_common(n)`: the `n` highest counts, largest first,
ties in first-occurrence order (`mergeSort` is stable). -/
def most_common (l : List String) (n : ℕ) : List (String × ℕ) :=
  ((counterCounts l).mergeSort (fun a b => decide (b.2 ≤ a.2))).take n

/-- The top-up loop of `get_text_themes`:

```
for word, _ in word_counts.most_common(max_themes * 2):
    if len(common_themes) >= max_themes:
        break
    if word.lower() not in [theme.lower() for theme in common_themes]:
        common_themes.append(word)
```
-/
def fillThemes (max_themes : ℕ) (themes : List String) :
    List (String × ℕ) → List String
  | [] => themes
  | (w, _) :: rest =>
    if themes.length ≥ max_themes then themes
    else if (themes.map String.toLower).contains w.toLower then
      fillThemes max_themes themes rest
    else
      fillThemes max_themes (themes ++ [w]) rest

/-- The `try` block of `get_text_themes(text, max_themes)`.  Every
operation in the Python body is total on strings, so this always
succeeds; the `Except` layer mirrors the `try`/`except` structure of the
source. -/
def get_text_themes_try (text : String) (max_themes : ℕ) :
    Except String (List String) :=
  let sentences := theme_sentence_split text
  let noun_phrases :=
    sentences.flatMap (fun s => capPhrases (toWords s) ++ capWords (toWords s))
  let common_themes :=
    ((most_common noun_phrases max_themes).map Prod.fst).filter
      (fun theme => theme.length > 3)
  let common_themes :=
    if common_themes.length < max_themes then
      fillThemes max_themes common_themes
        (most_common (alphaWords text) (max_themes * 2))
    else common_themes
  Except.ok (common_themes.take max_themes)

/-- `get_text_themes(text, max_themes=5)`: run the body; on any exception
print a message and return the single fallback theme `['general']`. -/
def get_text_themes (text : String) (max_themes : ℕ) : List String :=
  match get_text_themes_try text max_themes with
  | Except.ok themes => themes
  | Except.error _ => ["general"]

/-! ## Job status surface (`src/types/api.ts`) and the polling client
(`src/pages/Index.tsx`) -/

/-- The values of the `status` field of `StatusResponse`
(`src/types/api.ts`): `"processing" | "analyzed" | "completed" | "failed"`. -/
def statusValues : List String := ["processing", "analyzed", "completed", "failed"]

/-- The job states named by the specification's state machine (§5 of the
spec).  This definition follows the spec's words, not the source; it is
the refinement target the code's `statusValues` is compared against. -/
def spec_state_machine_states : List String :=
  ["submitted", "extracting", "embedding", "retrieving", "matching",
   "finalizing", "completed", "failed"]

/-- Externally visible actions of the polling client in
`src/pages/Index.tsx`, in the order they are performed. -/
inductive Event
  | statusChecked (s : String)
  | startedCheck
  | resultsFetched
  | stopped
deriving DecidableEq

/-- The `pollForCompletion` helper of `Index.tsx`, run against the
sequence of statuses the backend will answer with, one per interval
tick:

```
const statusResponse = await checkStatus(jobId);
if (statusResponse.status === "completed") { clearInterval(...); ... await getResults(jobId); ... }
else if (statusResponse.status === "failed") { clearInterval(...); ... }
```

Any other status leaves the interval running, i.e. it polls again. -/
def pollForCompletion : List String → List Event
  | [] => []
  | s :: rest =>
    Event.statusChecked s ::
      (if s = "completed" then [Event.resultsFetched]
       else if s = "failed" then [Event.stopped]
       else pollForCompletion rest)

/-- The polling interval set up by `handleSubmission` in `Index.tsx`:

```
const statusResponse = await checkStatus(jobId);
if (status === "analyzed") { clearInterval(...); await startPlagiarismCheck(jobId); pollForCompletion(jobId); }
else if (status === "completed") { clearInterval(...); ... await getResults(jobId); ... }
else if (status === "failed") { clearInterval(...); ... }
```
-/
def handleSubmission_poll : List String → List Event
  | [] => []
  | s :: rest =>
    Event.statusChecked s ::
      (if s = "analyzed" then Event.startedCheck :: pollForCompletion rest
       else if s = "completed" then [Event.resultsFetched]
       else if s = "failed" then [Event.stopped]
       else handleSubmission_poll rest)

/-- `true` when every `resultsFetched` in the trace immediately follows
a `statusChecked "completed"`. -/
def fetchOnlyAfterCompleted : List Event → Bool
  | [] => true
  | Event.statusChecked s :: Event.resultsFetched :: rest =>
    (s == "completed") && fetchOnlyAfterCompleted rest
  | Event.resultsFetched :: _ => false
  | _ :: rest => fetchOnlyAfterCompleted rest

/-! ## The PDF report's match split (`src/components/PlagiarismReport.tsx`,
`generatePDF`) -/

/-- JavaScript's `Math.round`: round half towards positive infinity. -/
def jsRound (x : ℚ) : ℤ := ⌊x + 1 / 2⌋

/-- `const exactMatchPercent = Math.round(plagiarismPercentage * 0.6);` -/
def exactMatchPercent (p : ℚ) : ℤ := jsRound (p * (3 / 5))

/-- `const partialMatchPercent = Math.round(plagiarismPercentage * 0.4);`
— the `partialMatchPercent` constant of `generatePDF`, abbreviated here
to `pMatchPercent`. -/
def pMatchPercent (p : ℚ) : ℤ := jsRound (p * (2 / 5))

/-! ## Submission guards (`src/components/TextInput.tsx`,
`src/components/FileUploader.tsx`) -/

/-- JavaScript's `String.prototype.trim`: strip leading and trailing
whitespace. -/
def jsTrim (s : String) : String :=
  String.mk (((s.toList.dropWhile Char.isWhitespace).reverse.dropWhile
    Char.isWhitespace).reverse)

/-- `handleSubmit` of `TextInput.tsx`: `if (text.trim()) { onSubmit(text); }`
— a string is truthy exactly when it is non-empty.  Returns the argument
passed to `onSubmit`, or `none` when `onSubmit` is not called. -/
def textInput_handleSubmit (text : String) : Option String :=
  if jsTrim text = "" then none else some text

/-- The `disabled` prop of the `Check Plagiarism` button:
`disabled={!text.trim()}`. -/
def textInput_submitDisabled (text : String) : Bool :=
  jsTrim text == ""

/-- A browser `File` as `FileUploader.tsx` inspects it: its name and its
MIME `type`. -/
structure JsFile where
  name : String
  type : String
deriving DecidableEq

/-- The MIME types accepted by `handleDrop`. -/
def acceptedDropTypes : List String :=
  ["application/pdf",
   "application/vnd.openxmlformats-officedocument.wordprocessingml.document",
   "text/plain"]

/-- `handleDrop` of `FileUploader.tsx`: take the first dropped file and
pass it to `onFileSelect` only when its type is PDF, DOCX or plain text;
otherwise do nothing.  Returns the argument passed to `onFileSelect`. -/
def handleDrop (files : List JsFile) : Option JsFile :=
  match files with
  | [] => none
  | file :: _ =>
    if file.type = "application/pdf"
        ∨ file.type = "application/vnd.openxmlformats-officedocument.wordprocessingml.document"
        ∨ file.type = "text/plain" then
      some file
    else
      none

/-- `handleFileInput` of `FileUploader.tsx`: pass the first chosen file
to `onFileSelect` unconditionally (no type check). -/
def handleFileInput (files : List JsFile) : Option JsFile :=
  match files with
  | [] => none
  | file :: _ => some file

/-! ## Concrete sample inputs used by witnesses and counterexamples -/

/-- An un-normalised row: its squared norm is 4, not 1. -/
def twoZero : Vec := [2, 0]

/-- 64 copies of the un-normalised row `[2, 0]`: enough rows for IVF
training to go through. -/
def trainMat : Mat := List.replicate 64 twoZero

/-- 64 unit rows. -/
def M64r : Mat := List.replicate 64 [1, 0]

/-- The index `create_faiss_index M64r "ivf"` builds. -/
noncomputable def idx64 : FaissIndex :=
  ⟨IndexKind.ivf, 2, 64, 3, M64r, normalize_L2_mat M64r⟩

/-- 32 rows: fewer training points than the minimum 64 clusters. -/
def M32r : Mat := List.replicate 32 [1, 0]

/-- 100 rows: IVF training succeeds, with fewer than 2 vectors per
cluster. -/
def M100r : Mat := List.replicate 100 [1, 0]

/-- A small two-row corpus. -/
def MW : Mat := [[1, 0], [0, 1]]

/-- A sample query vector. -/
def qW : Vec := [1, 0]

/-- The index `create_faiss_index MW "flat"` builds. -/
noncomputable def flatIdxW : FaissIndex :=
  ⟨IndexKind.flat, 2, 0, 0, [], normalize_L2_mat MW⟩

/-- A file of a type `handleDrop` does not accept. -/
def pngFile : JsFile := ⟨"photo.png", "image/png"⟩

/-- A file of an accepted type. -/
def pdfFile : JsFile := ⟨"paper.pdf", "application/pdf"⟩

/-- A small sample document. -/
def sampleText : String := "Alpha beta gamma. Delta works well."

/-- A status schedule on which the job fails. -/
def schedW : List String := ["processing", "failed"]

/-! ## C9: blank text is rejected at submission -/

/-- C9: for every text whose trimmed form is empty, `handleSubmit` of
`TextInput` never calls `onSubmit`, and the submit button is disabled,
so no check is initiated. -/
theorem textInput_rejects_blank (text : String) (h : jsTrim text = "") :
    textInput_handleSubmit text = none ∧ textInput_submitDisabled text = true := by
  refine ⟨?_, ?_⟩ <;> simp [textInput_handleSubmit, textInput_submitDisabled, h]

/-- C9 witness: a whitespace-only text is rejected. -/
theorem textInput_rejects_blank_witness :
    jsTrim "  " = "" ∧
      (textInput_handleSubmit "  " = none ∧ textInput_submitDisabled "  " = true) :=
  ⟨by decide, textInput_rejects_blank "  " (by decide)⟩

/-! ## C10: the two file-submission paths filter inconsistently -/

/-- C10: a dropped file reaches `onFileSelect` only when its MIME type is
PDF, DOCX or plain text, while the file-picker input hands over its first
file unconditionally; a PNG is silently ignored by drop but accepted by
the picker. -/
theorem fileUploader_filter_mismatch (files : List JsFile) (file : JsFile)
    (h : handleDrop files = some file) :
    file.type ∈ acceptedDropTypes ∧
    (∀ g gs, handleFileInput (g :: gs) = some g) ∧
    handleDrop [pngFile] = none ∧ handleFileInput [pngFile] = some pngFile := by
  refine ⟨?_, fun g gs => rfl, by decide, rfl⟩
  match files with
  | [] => exact absurd h (by simp [handleDrop])
  | f :: fs =>
    by_cases ht : f.type = "application/pdf"
        ∨ f.type = "application/vnd.openxmlformats-officedocument.wordprocessingml.document"
        ∨ f.type = "text/plain"
    · simp only [handleDrop, if_pos ht] at h
      cases h
      simpa [acceptedDropTypes] using ht
    · simp only [handleDrop, if_neg ht] at h
      cases h

/-- C10 witness: a PDF dropped file is accepted and its type is in the
accepted list. -/
theorem fileUploader_filter_mismatch_witness :
    handleDrop [pdfFile] = some pdfFile ∧ pdfFile.type ∈ acceptedDropTypes :=
  ⟨by decide, (fileUploader_filter_mismatch [pdfFile] pdfFile (by decide)).1⟩

/-! ## C7: the PDF report's exact/partial match split -/

/-- C7: the report's exact-match figure is `round(0.6 * p)` and its
partial-match figure is `round(0.4 * p)` — fixed fractions of the
plagiarism percentage, functions of `p` alone — and their sum differs
from `p` by at most 1. -/
theorem pdf_match_split_sums_to_p (p : ℚ) :
    exactMatchPercent p = jsRound (p * (3 / 5)) ∧
    pMatchPercent p = jsRound (p * (2 / 5)) ∧
    |((exactMatchPercent p : ℚ) + (pMatchPercent p : ℚ)) - p| ≤ 1 := by
  refine ⟨rfl, rfl, ?_⟩
  have he1 : ((exactMatchPercent p : ℚ)) ≤ p * (3 / 5) + 1 / 2 :=
    Int.floor_le (p * (3 / 5) + 1 / 2)
  have he2 : p * (3 / 5) + 1 / 2 < (exactMatchPercent p : ℚ) + 1 :=
    Int.lt_floor_add_one (p * (3 / 5) + 1 / 2)
  have hp1 : ((pMatchPercent p : ℚ)) ≤ p * (2 / 5) + 1 / 2 :=
    Int.floor_le (p * (2 / 5) + 1 / 2)
  have hp2 : p * (2 / 5) + 1 / 2 < (pMatchPercent p : ℚ) + 1 :=
    Int.lt_floor_add_one (p * (2 / 5) + 1 / 2)
  rw [abs_le]
  constructor <;> linarith

/-- C7 witness: at a 45% plagiarism score the split figures sum to
within 1 of 45. -/
theorem pdf_match_split_sums_to_p_witness :
    exactMatchPercent 45 = jsRound (45 * (3 / 5)) ∧
    pMatchPercent 45 = jsRound (45 * (2 / 5)) ∧
    |((exactMatchPercent 45 : ℚ) + (pMatchPercent 45 : ℚ)) - 45| ≤ 1 :=
  pdf_match_split_sums_to_p 45

/-! ## C5: the status values actually exposed to the polling caller -/

/-- C5 counterexample: `"processing"` is a status value of the
`StatusResponse` surface but is not a state of the specification's
`submitted → … → completed / failed` machine. -/
theorem status_value_outside_spec_states :
    "processing" ∈ statusValues ∧ "processing" ∉ spec_state_machine_states := by
  decide

/-- C5 (amended): every `StatusResponse` status value is one of
`processing`, `analyzed`, `completed`, `failed`, and every status that
makes either polling loop of `Index.tsx` do anything besides keep
polling is one of these declared values. -/
theorem statusValues_exhaustive :
    (∀ s, s ∈ statusValues →
      s = "processing" ∨ s = "analyzed" ∨ s = "completed" ∨ s = "failed") ∧
    (∀ s rest, handleSubmission_poll (s :: rest) ≠
        Event.statusChecked s :: handleSubmission_poll rest → s ∈ statusValues) ∧
    (∀ s rest, pollForCompletion (s :: rest) ≠
        Event.statusChecked s :: pollForCompletion rest → s ∈ statusValues) := by
  refine ⟨?_, ?_, ?_⟩
  · intro s hs
    simpa [statusValues] using hs
  · intro s rest h
    by_cases h1 : s = "analyzed"
    · subst h1; simp [statusValues]
    by_cases h2 : s = "completed"
    · subst h2; simp [statusValues]
    by_cases h3 : s = "failed"
    · subst h3; simp [statusValues]
    exfalso
    apply h
    simp [handleSubmission_poll, h1, h2, h3]
  · intro s rest h
    by_cases h2 : s = "completed"
    · subst h2; simp [statusValues]
    by_cases h3 : s = "failed"
    · subst h3; simp [statusValues]
    exfalso
    apply h
    simp [pollForCompletion, h2, h3]

/-- C5 witness: `"analyzed"` makes the first polling loop transition, and
it is a declared status value. -/
theorem statusValues_exhaustive_witness : "analyzed" ∈ statusValues :=
  statusValues_exhaustive.2.1 "analyzed" [] (by decide)

/-! ## C2: the `'ivf'` branch never falls back to the flat index -/

/-- C2 evaluation at the failing inputs: with 32 rows the IVF build fails
(FAISS k-means needs at least as many training points as clusters)
instead of falling back, and with 100 rows — fewer than two vectors per
cluster — it returns the approximate IVF index, not the exact flat
index. -/
theorem create_ivf_no_fallback :
    (create_faiss_index M32r "ivf").isOk = false ∧
    (create_faiss_index M100r "ivf").map FaissIndex.kind = Except.ok IndexKind.ivf := by
  exact ⟨rfl, rfl⟩

/-! ## C4: theme extraction is bounded and never fails the pipeline -/

/-- C4: `get_text_themes` returns at most `max_themes` themes, and when
its `try` body raises it returns exactly the single fallback theme
`["general"]`; being a total function, it never propagates an
exception. -/
theorem get_text_themes_bounded (text : String) (max_themes : ℕ) :
    (get_text_themes text max_themes).length ≤ max_themes ∧
    (∀ e, get_text_themes_try text max_themes = Except.error e →
      get_text_themes text max_themes = ["general"]) := by
  constructor
  · simp only [get_text_themes, get_text_themes_try]
    exact List.length_take_le _ _
  · intro e he
    simp [get_text_themes, he]

/-- C4 witness: at most two themes come back for the sample document. -/
theorem get_text_themes_bounded_witness :
    (get_text_themes sampleText 2).length ≤ 2 ∧
    (∀ e, get_text_themes_try sampleText 2 = Except.error e →
      get_text_themes sampleText 2 = ["general"]) :=
  get_text_themes_bounded sampleText 2

/-! ## C6: results are only fetched after a `completed` status -/

/-- Prepending a status check to a `pollForCompletion` trace does not
create a `resultsFetched` without its `completed`: the trace of
`pollForCompletion` never begins with `resultsFetched`. -/
theorem fetchOnly_checked_pollForCompletion (s : String) (sched : List String) :
    fetchOnlyAfterCompleted (Event.statusChecked s :: pollForCompletion sched) =
      fetchOnlyAfterCompleted (pollForCompletion sched) := by
  cases sched with
  | nil => rfl
  | cons s' rest => rfl

/-- Same fact for `handleSubmission_poll` traces. -/
theorem fetchOnly_checked_handleSubmission (s : String) (sched : List String) :
    fetchOnlyAfterCompleted (Event.statusChecked s :: handleSubmission_poll sched) =
      fetchOnlyAfterCompleted (handleSubmission_poll sched) := by
  cases sched with
  | nil => rfl
  | cons s' rest => rfl

/-- Every `resultsFetched` in a `pollForCompletion` trace immediately
follows a `completed` status check. -/
theorem pollForCompletion_fetchOnly (sched : List String) :
    fetchOnlyAfterCompleted (pollForCompletion sched) = true := by
  induction sched with
  | nil => rfl
  | cons s rest ih =>
    by_cases h1 : s = "completed"
    · subst h1
      rfl
    by_cases h2 : s = "failed"
    · subst h2
      rfl
    · simp only [pollForCompletion, if_neg h1, if_neg h2]
      rw [fetchOnly_checked_pollForCompletion]
      exact ih

/-- Every `resultsFetched` in a `handleSubmission_poll` trace immediately
follows a `completed` status check. -/
theorem handleSubmission_poll_fetchOnly (sched : List String) :
    fetchOnlyAfterCompleted (handleSubmission_poll sched) = true := by
  induction sched with
  | nil => rfl
  | cons s rest ih =>
    by_cases ha : s = "analyzed"
    · subst ha
      exact pollForCompletion_fetchOnly rest
    by_cases h1 : s = "completed"
    · subst h1
      rfl
    by_cases h2 : s = "failed"
    · subst h2
      rfl
    · simp only [handleSubmission_poll, if_neg ha, if_neg h1, if_neg h2]
      rw [fetchOnly_checked_handleSubmission]
      exact ih

/-- If no tick ever answers `completed`, `pollForCompletion` never
fetches results. -/
theorem pollForCompletion_no_fetch (sched : List String)
    (h : "completed" ∉ sched) :
    Event.resultsFetched ∉ pollForCompletion sched := by
  induction sched with
  | nil => simp [pollForCompletion]
  | cons s rest ih =>
    simp only [List.mem_cons, not_or] at h
    obtain ⟨h1, h2⟩ := h
    have hs1 : ¬ s = "completed" := fun hc => h1 (Eq.symm hc)
    by_cases hf : s = "failed"
    · subst hf
      have htr : pollForCompletion ("failed" :: rest) =
          [Event.statusChecked "failed", Event.stopped] := rfl
      rw [htr]
      decide
    · have htr : pollForCompletion (s :: rest) =
          Event.statusChecked s :: pollForCompletion rest := by
        simp only [pollForCompletion, if_neg hs1, if_neg hf]
      rw [htr]
      intro hmem
      rcases List.mem_cons.mp hmem with hh | hh
      · cases hh
      · exact ih h2 hh

/-- If no tick ever answers `completed`, `handleSubmission_poll` never
fetches results; in particular, a `failed` status stops polling without
a result fetch. -/
theorem handleSubmission_poll_no_fetch (sched : List String)
    (h : "completed" ∉ sched) :
    Event.resultsFetched ∉ handleSubmission_poll sched := by
  induction sched with
  | nil => simp [handleSubmission_poll]
  | cons s rest ih =>
    simp only [List.mem_cons, not_or] at h
    obtain ⟨h1, h2⟩ := h
    have hs1 : ¬ s = "completed" := fun hc => h1 (Eq.symm hc)
    by_cases ha : s = "analyzed"
    · subst ha
      have htr : handleSubmission_poll ("analyzed" :: rest) =
          Event.statusChecked "analyzed" :: Event.startedCheck ::
            pollForCompletion rest := rfl
      rw [htr]
      intro hmem
      rcases List.mem_cons.mp hmem with hh | hh
      · cases hh
      rcases List.mem_cons.mp hh with hh2 | hh2
      · cases hh2
      · exact pollForCompletion_no_fetch rest h2 hh2
    by_cases hf : s = "failed"
    · subst hf
      have htr : handleSubmission_poll ("failed" :: rest) =
          [Event.statusChecked "failed", Event.stopped] := rfl
      rw [htr]
      decide
    · have htr : handleSubmission_poll (s :: rest) =
          Event.statusChecked s :: handleSubmission_poll rest := by
        simp only [handleSubmission_poll, if_neg ha, if_neg hs1, if_neg hf]
      rw [htr]
      intro hmem
      rcases List.mem_cons.mp hmem with hh | hh
      · cases hh
      · exact ih h2 hh

/-- C6: in the polling client of `Index.tsx`, `getResults` is only ever
called immediately after a `checkStatus` call returned `completed`; and
on a schedule that never answers `completed` (for example one that
fails), no result is ever fetched. -/
theorem polling_fetches_only_after_completed (sched : List String) :
    fetchOnlyAfterCompleted (handleSubmission_poll sched) = true ∧
    ("completed" ∉ sched → Event.resultsFetched ∉ handleSubmission_poll sched) :=
  ⟨handleSubmission_poll_fetchOnly sched,
   fun h => handleSubmission_poll_no_fetch sched h⟩

/-- C6 witness: on the schedule `processing, failed` the client stops
without ever fetching a result. -/
theorem polling_fetches_only_after_completed_witness :
    fetchOnlyAfterCompleted (handleSubmission_poll schedW) = true ∧
    Event.resultsFetched ∉ handleSubmission_poll schedW :=
  ⟨(polling_fetches_only_after_completed schedW).1,
   (polling_fetches_only_after_completed schedW).2 (by decide)⟩

/-! ## C1: the cluster count is linear in the corpus size, not sqrt -/

/-- C1 counterexample: `nlist` is not `sqrt(n)` clamped to any fixed
minimum and maximum: no clamp bounds reproduce both
`ivf_nlist 6400 = 512` (while `sqrt 6400 = 80`) and
`ivf_nlist 1000 = 100` (while `sqrt 1000 = 31`). -/
theorem ivf_nlist_not_clamped_sqrt :
    ¬ ∃ lo hi : ℕ, ∀ n : ℕ, ivf_nlist n = min hi (max lo (Nat.sqrt n)) := by
  rintro ⟨lo, hi, h⟩
  have h1 := h 6400
  have h2 := h 1000
  have s1 : Nat.sqrt 6400 = 80 := (Nat.eq_sqrt.mpr (by norm_num)).symm
  have s2 : Nat.sqrt 1000 = 31 := (Nat.eq_sqrt.mpr (by norm_num)).symm
  have e1 : ivf_nlist 6400 = 512 := by decide
  have e2 : ivf_nlist 1000 = 100 := by decide
  rw [s1, e1] at h1
  rw [s2, e2] at h2
  omega

/-- The string dispatch of `create_faiss_index` at `'ivf'`, reduced. -/
theorem create_ivf_eq (M : Mat) :
    create_faiss_index M "ivf" =
      if M.length < ivf_nlist M.length then
        Except.error
          "Number of training points should be at least as large as number of clusters"
      else
        Except.ok ⟨IndexKind.ivf, (M.headD []).length, ivf_nlist M.length, 3, M,
          normalize_L2_mat M⟩ := rfl

/-- Inversion of a successful `'ivf'` build. -/
theorem create_ivf_ok_inv (M : Mat) (idx : FaissIndex)
    (h : create_faiss_index M "ivf" = Except.ok idx) :
    idx = ⟨IndexKind.ivf, (M.headD []).length, ivf_nlist M.length, 3, M,
      normalize_L2_mat M⟩ := by
  rw [create_ivf_eq] at h
  by_cases hl : M.length < ivf_nlist M.length
  · rw [if_pos hl] at h
    cases h
  · rw [if_neg hl] at h
    exact (Except.ok.inj h).symm

/-- C1 (amended): on a successful `'ivf'` build the cluster count is
`min(512, max(64, n // 10))` — linear in the number `n` of corpus
vectors, clamped to the fixed minimum 64 and maximum 512 — and it is a
pure function of `n`: any two corpora of the same size get the same
`nlist`. -/
theorem create_ivf_nlist_formula (M : Mat) (idx : FaissIndex)
    (h : create_faiss_index M "ivf" = Except.ok idx) :
    idx.nlist = ivf_nlist M.length ∧ 64 ≤ idx.nlist ∧ idx.nlist ≤ 512 ∧
    (∀ M' idx', M'.length = M.length →
      create_faiss_index M' "ivf" = Except.ok idx' → idx'.nlist = idx.nlist) := by
  have hinv := create_ivf_ok_inv M idx h
  subst hinv
  refine ⟨rfl, ?_, ?_, ?_⟩
  · show 64 ≤ ivf_nlist M.length
    unfold ivf_nlist
    omega
  · show ivf_nlist M.length ≤ 512
    unfold ivf_nlist
    omega
  · intro M' idx' hlen h'
    have hinv' := create_ivf_ok_inv M' idx' h'
    subst hinv'
    show ivf_nlist M'.length = ivf_nlist M.length
    rw [hlen]

/-- C1 witness: the 64-row corpus builds with `nlist = 64`, inside the
clamp. -/
theorem create_ivf_nlist_formula_witness :
    create_faiss_index M64r "ivf" = Except.ok idx64 ∧
    idx64.nlist = ivf_nlist M64r.length ∧ 64 ≤ idx64.nlist ∧ idx64.nlist ≤ 512 :=
  ⟨rfl, (create_ivf_nlist_formula M64r idx64 rfl).1,
   (create_ivf_nlist_formula M64r idx64 rfl).2.1,
   (create_ivf_nlist_formula M64r idx64 rfl).2.2.1⟩

/-! ## Vector arithmetic lemmas -/

theorem dot_cons (a b : ℝ) (u w : Vec) :
    dot (a :: u) (b :: w) = a * b + dot u w := by
  simp [dot]

theorem sumSq_cons (x : ℝ) (v : Vec) : sumSq (x :: v) = x * x + sumSq v := by
  simp [sumSq, dot]

theorem sumSq_nonneg (v : Vec) : 0 ≤ sumSq v := by
  induction v with
  | nil => simp [sumSq, dot]
  | cons x v ih =>
    rw [sumSq_cons]
    exact add_nonneg (mul_self_nonneg x) ih

/-- Cauchy–Schwarz for the list inner product, by induction. -/
theorem dot_sq_le_sumSq_mul (u : Vec) : ∀ w : Vec, (dot u w) ^ 2 ≤ sumSq u * sumSq w := by
  induction u with
  | nil =>
    intro w
    simp [dot, sumSq]
  | cons a u ih =>
    intro w
    cases w with
    | nil => simp [dot, sumSq]
    | cons b w =>
      rw [dot_cons, sumSq_cons, sumSq_cons]
      have hd := ih w
      have hsu := sumSq_nonneg u
      have hsw := sumSq_nonneg w
      rcases eq_or_lt_of_le hsu with h0 | hpos
      · have hzero : (dot u w) ^ 2 = 0 := by
          have hle : (dot u w) ^ 2 ≤ 0 := by
            calc (dot u w) ^ 2 ≤ sumSq u * sumSq w := hd
            _ = 0 := by rw [← h0, zero_mul]
          exact le_antisymm hle (sq_nonneg _)
        have hdw : dot u w = 0 := (pow_eq_zero_iff two_ne_zero).mp hzero
        rw [hdw, ← h0]
        nlinarith [mul_nonneg (mul_self_nonneg a) hsw]
      · have hsub : 0 ≤ sumSq u * sumSq w - (dot u w) ^ 2 := sub_nonneg.mpr hd
        nlinarith [sq_nonneg (a * dot u w - b * sumSq u),
          mul_nonneg (le_of_lt hpos) hsub,
          mul_nonneg (mul_self_nonneg a) hsub, hpos]

theorem sumSq_map_div (v : Vec) (c : ℝ) :
    sumSq (v.map (fun x => x / c)) = sumSq v / (c * c) := by
  induction v with
  | nil => simp [sumSq, dot]
  | cons x v ih =>
    simp only [List.map_cons]
    rw [sumSq_cons, sumSq_cons, ih, div_mul_div_comm, div_add_div_same]

/-- After `faiss.normalize_L2`, a vector of non-zero norm has squared
norm exactly 1. -/
theorem sumSq_normalize_L2 (v : Vec) (h : sumSq v ≠ 0) :
    sumSq (normalize_L2 v) = 1 := by
  unfold normalize_L2 l2norm
  rw [sumSq_map_div, Real.mul_self_sqrt (sumSq_nonneg v)]
  exact div_self h

/-- Every score produced by `scoresFrom` is the inner product of the
query with one of the scored rows. -/
theorem scoresFrom_mem (qn : Vec) :
    ∀ (vs : Mat) (i : ℕ) (p : ℝ × ℕ), p ∈ scoresFrom qn vs i →
      ∃ v ∈ vs, p.1 = dot qn v := by
  intro vs
  induction vs with
  | nil =>
    intro i p hp
    simp [scoresFrom] at hp
  | cons v vs ih =>
    intro i p hp
    simp only [scoresFrom] at hp
    rcases List.mem_cons.mp hp with hh | hh
    · exact ⟨v, List.mem_cons_self v vs, by rw [hh]⟩
    · obtain ⟨w, hw, he⟩ := ih (i + 1) p hh
      exact ⟨w, List.mem_cons_of_mem v hw, he⟩

/-- The string dispatch of `create_faiss_index` at `'flat'`, reduced. -/
theorem create_flat_eq (M : Mat) :
    create_faiss_index M "flat" =
      Except.ok ⟨IndexKind.flat, (M.headD []).length, 0, 0, [],
        normalize_L2_mat M⟩ := rfl

/-! ## C8: search results are at most `k`, in descending score order -/

/-- C8: for every query, index and `k`, `search_similar_vectors` returns
at most `k` `(score, label)` pairs, ordered by descending similarity
score; the default `k` is 5. -/
theorem search_topk_sorted (q : Vec) (index : FaissIndex) (k : ℕ) :
    (search_similar_vectors q index k).length ≤ k ∧
    (search_similar_vectors q index k).Pairwise (fun a b => b.1 ≤ a.1) ∧
    search_similar_vectors_default q index = search_similar_vectors q index 5 := by
  refine ⟨List.length_take_le _ _, ?_, rfl⟩
  have htrans : ∀ a b c : ℝ × ℕ, scoreDesc a b → scoreDesc b c → scoreDesc a c := by
    intro a b c hab hbc
    simp only [scoreDesc, decide_eq_true_eq] at hab hbc ⊢
    exact le_trans hbc hab
  have htotal : ∀ a b : ℝ × ℕ, scoreDesc a b || scoreDesc b a := by
    intro a b
    simp only [scoreDesc, Bool.or_eq_true, decide_eq_true_eq]
    exact le_total b.1 a.1
  have hs := List.sorted_mergeSort htrans htotal
    (scoresFrom (normalize_L2 q) index.stored 0)
  have hs2 : (List.mergeSort (scoresFrom (normalize_L2 q) index.stored 0)
      scoreDesc).Pairwise (fun a b : ℝ × ℕ => b.1 ≤ a.1) := by
    refine hs.imp ?_
    intro a b hab
    simpa [scoreDesc] using hab
  exact List.Pairwise.sublist (List.take_sublist _ _) hs2

/-- C8 witness: on the sample flat index and query, the result is at most
5 long and descending. -/
theorem search_topk_sorted_witness :
    (search_similar_vectors qW flatIdxW 5).length ≤ 5 ∧
    (search_similar_vectors qW flatIdxW 5).Pairwise (fun a b => b.1 ≤ a.1) ∧
    search_similar_vectors_default qW flatIdxW = search_similar_vectors qW flatIdxW 5 :=
  search_topk_sorted qW flatIdxW 5

/-! ## C3: normalisation, cosine scores — and the untrained exception -/

/-- C3 counterexample: in the `'ivf'` branch the quantizer is trained on
the raw input matrix — `faiss.normalize_L2` only runs after
`index.train` — so with an un-normalised input the vectors the quantizer
trains on are not L2-normalised: here every trained row is `[2, 0]`,
whose squared norm is 4, not 1. -/
theorem ivf_quantizer_trained_unnormalized :
    (create_faiss_index trainMat "ivf").map FaissIndex.trainedOn =
      Except.ok trainMat ∧
    twoZero ∈ trainMat ∧ sumSq twoZero ≠ 1 := by
  refine ⟨rfl, ?_, ?_⟩
  · simp [trainMat, List.mem_replicate]
  · norm_num [twoZero, sumSq, dot]

/-- C3 (amended): the index stores the L2-normalised rows (normalisation
happens before `add`), the query is L2-normalised before searching, and
for a flat index over rows of non-zero norm and a query of non-zero norm
every returned score is the inner product of the two normalised vectors
— the cosine similarity — and lies in `[-1, 1]`.  (The `'ivf'` quantizer,
however, is trained on the raw rows; see the counterexample.) -/
theorem flat_index_scores_are_cosine (M : Mat) (q : Vec) (k : ℕ) (idx : FaissIndex)
    (hq : sumSq q ≠ 0) (hM : ∀ v ∈ M, sumSq v ≠ 0)
    (h : create_faiss_index M "flat" = Except.ok idx) :
    idx.stored = normalize_L2_mat M ∧
    ∀ p ∈ search_similar_vectors q idx k,
      (∃ v ∈ M, p.1 = dot (normalize_L2 q) (normalize_L2 v)) ∧
      -1 ≤ p.1 ∧ p.1 ≤ 1 := by
  have hinv : idx = ⟨IndexKind.flat, (M.headD []).length, 0, 0, [],
      normalize_L2_mat M⟩ :=
    (Except.ok.inj ((create_flat_eq M).symm.trans h)).symm
  subst hinv
  refine ⟨rfl, ?_⟩
  intro p hp
  have hp2 : p ∈ scoresFrom (normalize_L2 q) (normalize_L2_mat M) 0 :=
    List.mem_mergeSort.mp (List.mem_of_mem_take hp)
  obtain ⟨w, hw, he⟩ := scoresFrom_mem (normalize_L2 q) (normalize_L2_mat M) 0 p hp2
  have hw2 : w ∈ List.map normalize_L2 M := hw
  obtain ⟨v, hv, hveq⟩ := List.mem_map.mp hw2
  have hsc : p.1 = dot (normalize_L2 q) (normalize_L2 v) := by
    rw [he, ← hveq]
  have h1 : sumSq (normalize_L2 q) = 1 := sumSq_normalize_L2 q hq
  have h2 : sumSq (normalize_L2 v) = 1 := sumSq_normalize_L2 v (hM v hv)
  have hcs := dot_sq_le_sumSq_mul (normalize_L2 q) (normalize_L2 v)
  rw [h1, h2, one_mul] at hcs
  refine ⟨⟨v, hv, hsc⟩, ?_, ?_⟩
  · rw [hsc]
    nlinarith [hcs, sq_nonneg (dot (normalize_L2 q) (normalize_L2 v) + 1)]
  · rw [hsc]
    nlinarith [hcs, sq_nonneg (dot (normalize_L2 q) (normalize_L2 v) - 1)]

/-- C3 witness: the two-row flat index over unit rows yields cosine
scores in range for the sample query. -/
theorem flat_index_scores_are_cosine_witness :
    sumSq qW ≠ 0 ∧ (∀ v ∈ MW, sumSq v ≠ 0) ∧
    (flatIdxW.stored = normalize_L2_mat MW ∧
      ∀ p ∈ search_similar_vectors qW flatIdxW 5,
        (∃ v ∈ MW, p.1 = dot (normalize_L2 qW) (normalize_L2 v)) ∧
        -1 ≤ p.1 ∧ p.1 ≤ 1) := by
  have hq : sumSq qW ≠ 0 := by norm_num [qW, sumSq, dot]
  have hM : ∀ v ∈ MW, sumSq v ≠ 0 := by
    intro v hv
    rcases (by simpa [MW] using hv : v = [1, 0] ∨ v = [0, 1]) with hh | hh <;>
      subst hh <;> norm_num [sumSq, dot]
  exact ⟨hq, hM, flat_index_scores_are_cosine MW qW 5 flatIdxW hq hM rfl⟩

end PureText
